import Mathlib

/-!
Shallow embedding of `src/main.py` (Discord member sync bot) and proofs of
the specification's claims about it.

The embedding covers the two functions holding the program's logic:

* `write_log` (main.py lines 72-89): append an entry to a local JSON log,
  most-recent-first, truncated to 100 entries, with every read/write failure
  caught inside the function and reported to the console only.
* `sync_members` (main.py lines 92-122): look up the configured guild, read
  column 3 of the sheet into an in-memory set of identity strings, append one
  row per member whose `str(member.id)` is not in the set, adding the identity
  to the set right after each append, and finally record a "sync" log entry
  carrying the number of rows appended.

External effects are made explicit: the sheet is a list of rows (each a list
of cell strings), the log file is a state that is absent, valid JSON, or
corrupt bytes, write failures of the log file and of `sheet.append_row` are
oracles (a `Bool` flag, resp. a `Nat → Bool` telling whether the k-th append
call of a run succeeds), and the clock is a string parameter.
-/

namespace GetNameId

/-- A Discord member as `sync_members` reads it: display name, account name,
numeric id, and the display avatar URL (already rendered to a string). -/
structure Member where
  display_name : String
  name : String
  id : Nat
  avatar_url : String
deriving DecidableEq

/-- A guild as `bot.get_guild` returns it: name, id, and its member list. -/
structure Guild where
  name : String
  id : Nat
  members : List Member
deriving DecidableEq

/-- One entry of the execution log, as built in `write_log`. -/
structure LogEntry where
  timestamp : String
  status : String
  member_count : Nat
deriving DecidableEq

/-- The state of the log file on disk: missing, a valid JSON list of entries,
or bytes that `json.load` cannot parse. -/
inductive LogFileState where
  | absent : LogFileState
  | valid : List LogEntry → LogFileState
  | corrupt : String → LogFileState
deriving DecidableEq

/-- The file-system state `write_log` touches: the log file plus an oracle
saying whether the write of the file would fail with an OS error. -/
structure FS where
  logFile : LogFileState
  writeFails : Bool
deriving DecidableEq

/-- The body of the `try:` block of `write_log` (main.py lines 80-87): read
the existing list (raising on corrupt JSON), insert the new entry at index 0,
and rewrite the file with the first 100 entries (raising if the OS write
fails). -/
def write_log_body (entry : LogEntry) (fs : FS) : Except String FS :=
  match fs.logFile with
  | .corrupt _ => .error "invalid json"
  | .absent =>
      if fs.writeFails then .error "io error"
      else .ok { fs with logFile := .valid ((entry :: []).take 100) }
  | .valid data =>
      if fs.writeFails then .error "io error"
      else .ok { fs with logFile := .valid ((entry :: data).take 100) }

/-- `write_log` (main.py lines 72-89): run the body; any exception is caught
and turned into a console message, leaving the file as it was. Returns the
new file-system state and the list of console lines printed. -/
def write_log (status : String) (count : Nat) (time : String) (fs : FS) :
    FS × List String :=
  match write_log_body ⟨time, status, count⟩ fs with
  | .ok fs' => (fs', [])
  | .error e => (fs, ["log failed: " ++ e])

/-- Iterate `write_log`, one call per entry, in list order (oldest first). -/
def run_writes (entries : List LogEntry) (fs : FS) : FS :=
  entries.foldl (fun s e => (write_log e.status e.member_count e.timestamp s).1) fs

/-- `sheet.col_values c`: the cells of 1-indexed column `c`, one per row,
empty cells read as the empty string. -/
def col_values (c : Nat) (rows : List (List String)) : List String :=
  rows.map (fun r => r.getD (c - 1) "")

/-- The row `sync_members` appends for a member (main.py lines 108-116). -/
def mkRow (m : Member) (now : String) : List String :=
  [m.display_name, m.name, toString m.id, m.avatar_url, now]

/-- The external state a run of `sync_members` reads and writes: the sheet's
rows and the log file-system state. -/
structure SyncState where
  sheet : List (List String)
  fs : FS
deriving DecidableEq

/-- The outcome of one run of `sync_members`: the guild lookup returned
`None` (run returns early), the run completed having appended `added` rows,
or the `added + 1`-st append raised and the exception propagated. -/
inductive SyncResult where
  | guildNotFound : SyncResult
  | completed : Nat → SyncResult
  | appendFailed : Nat → SyncResult
deriving DecidableEq

/-- The member loop of `sync_members` (main.py lines 103-119): for each
member in roster order, skip it when `str(member.id)` is already in the
in-memory set, otherwise append its row (consulting the oracle `appendOk`
at the current value of `added`; a `false` models `append_row` raising, so
the loop aborts with the rows appended so far) and add the identity to the
set immediately. Returns `(rows, added)`, as `.error` when an append raised. -/
def sync_loop (now : String) (appendOk : Nat → Bool) :
    List Member → List String → List (List String) → Nat →
    Except (List (List String) × Nat) (List (List String) × Nat)
  | [], _, rows, added => .ok (rows, added)
  | m :: rest, existing, rows, added =>
      let uid := toString m.id
      if uid ∈ existing then
        sync_loop now appendOk rest existing rows added
      else if appendOk added then
        sync_loop now appendOk rest (uid :: existing) (rows ++ [mkRow m now]) (added + 1)
      else
        .error (rows, added)

/-- `sync_members` (main.py lines 92-122): if the guild does not resolve,
return with nothing changed (console report only, modelled by the
`.guildNotFound` outcome). Otherwise build the existing-identity set from
column 3 of the sheet, run the member loop, and on completion record one
"sync" log entry carrying `added`. When an append raised, the exception
propagates: rows appended so far remain and no log entry is written. -/
def sync_members (gopt : Option Guild) (now : String) (appendOk : Nat → Bool)
    (st : SyncState) : SyncState × SyncResult :=
  match gopt with
  | none => (st, .guildNotFound)
  | some g =>
      match sync_loop now appendOk g.members (col_values 3 st.sheet) st.sheet 0 with
      | .ok (rows, added) =>
          ({ sheet := rows, fs := (write_log "sync" added now st.fs).1 }, .completed added)
      | .error (rows, added) =>
          ({ sheet := rows, fs := st.fs }, .appendFailed added)

/-- The rows a completed run with no append failures adds, as a function of
the roster and the initial existing-identity set: mirrors the member loop. -/
def newRows (now : String) : List Member → List String → List (List String)
  | [], _ => []
  | m :: rest, existing =>
      let uid := toString m.id
      if uid ∈ existing then newRows now rest existing
      else mkRow m now :: newRows now rest (uid :: existing)

/-- The identity strings of the rows a completed run with no append failures
adds: the identity column of `newRows`. -/
def newIds : List Member → List String → List String
  | [], _ => []
  | m :: rest, existing =>
      let uid := toString m.id
      if uid ∈ existing then newIds rest existing
      else uid :: newIds rest (uid :: existing)

lemma sync_loop_true_eq (now : String) :
    ∀ (members : List Member) (existing : List String)
      (rows : List (List String)) (added : Nat),
      sync_loop now (fun _ => true) members existing rows added =
        .ok (rows ++ newRows now members existing,
          added + (newRows now members existing).length) := by
  intro members
  induction members with
  | nil => intro existing rows added; simp [sync_loop, newRows]
  | cons m rest ih =>
    intro existing rows added
    by_cases h : toString m.id ∈ existing
    · simp only [sync_loop, newRows, h, if_true, if_pos]
      exact ih existing rows added
    · simp only [sync_loop, newRows, h, if_false, if_neg, not_false_iff, if_true]
      rw [ih (toString m.id :: existing) (rows ++ [mkRow m now]) (added + 1)]
      simp [List.append_assoc]
      omega

lemma newIds_count_of_mem (uid : String) :
    ∀ (members : List Member) (existing : List String), uid ∈ existing →
      (newIds members existing).count uid = 0 := by
  intro members
  induction members with
  | nil => intro existing _; simp [newIds]
  | cons m rest ih =>
    intro existing h
    by_cases hm : toString m.id ∈ existing
    · simp only [newIds, hm, if_true, if_pos]
      exact ih existing h
    · have hne : toString m.id ≠ uid := fun he => hm (he ▸ h)
      simp only [newIds, hm, if_false, if_neg, not_false_iff, List.count_cons]
      rw [ih (toString m.id :: existing) (List.mem_cons_of_mem _ h)]
      simp [hne]

lemma newIds_count_of_not_mem (uid : String) :
    ∀ (members : List Member) (existing : List String), uid ∉ existing →
      (newIds members existing).count uid =
        if uid ∈ members.map (fun m => toString m.id) then 1 else 0 := by
  intro members
  induction members with
  | nil => intro existing _; simp [newIds]
  | cons m rest ih =>
    intro existing h
    by_cases hm : toString m.id ∈ existing
    · have hne : ¬uid = toString m.id := fun he => h (he ▸ hm)
      simp only [newIds, hm, if_true, if_pos, List.map_cons, List.mem_cons]
      rw [ih existing h]
      simp [hne]
    · by_cases he : toString m.id = uid
      · subst he
        simp only [newIds, hm, if_false, if_neg, not_false_iff, List.count_cons,
          List.map_cons, List.mem_cons]
        rw [newIds_count_of_mem _ rest _ (List.mem_cons_self _ _)]
        simp
      · have hne : ¬uid = toString m.id := fun h2 => he h2.symm
        simp only [newIds, hm, if_false, if_neg, not_false_iff, List.count_cons,
          List.map_cons, List.mem_cons]
        rw [ih (toString m.id :: existing) (by simp [h, hne])]
        simp [hne, he]

lemma col_values_append (c : Nat) (r1 r2 : List (List String)) :
    col_values c (r1 ++ r2) = col_values c r1 ++ col_values c r2 := by
  simp [col_values]

lemma col_values_newRows (now : String) :
    ∀ (members : List Member) (existing : List String),
      col_values 3 (newRows now members existing) = newIds members existing := by
  intro members
  induction members with
  | nil => intro existing; simp [newRows, newIds, col_values]
  | cons m rest ih =>
    intro existing
    by_cases hm : toString m.id ∈ existing
    · simp only [newRows, newIds, hm, if_true, if_pos]
      exact ih existing
    · simp only [newRows, newIds, hm, if_false, if_neg, not_false_iff]
      rw [← ih (toString m.id :: existing)]
      rfl

lemma newRows_nil_of_all_mem (now : String) :
    ∀ (members : List Member) (existing : List String),
      (∀ m ∈ members, toString m.id ∈ existing) →
      newRows now members existing = [] := by
  intro members
  induction members with
  | nil => intro existing _; rfl
  | cons m rest ih =>
    intro existing h
    have hm : toString m.id ∈ existing := h m (List.mem_cons_self m rest)
    simp only [newRows, hm, if_true, if_pos]
    exact ih existing (fun x hx => h x (List.mem_cons_of_mem _ hx))

lemma sync_loop_ok_shape (now : String) (f : Nat → Bool) :
    ∀ (members : List Member) (existing : List String)
      (rows : List (List String)) (added : Nat)
      (rows2 : List (List String)) (added2 : Nat),
      sync_loop now f members existing rows added = .ok (rows2, added2) →
      ∃ new, rows2 = rows ++ new ∧ added2 = added + new.length ∧
        ∀ r ∈ new, ∃ m ∈ members, r = mkRow m now := by
  intro members
  induction members with
  | nil =>
    intro existing rows added rows2 added2 h
    simp only [sync_loop, Except.ok.injEq, Prod.mk.injEq] at h
    exact ⟨[], by simp [h.1], by simp [h.2], by simp⟩
  | cons m rest ih =>
    intro existing rows added rows2 added2 h
    by_cases hm : toString m.id ∈ existing
    · simp only [sync_loop, hm, if_true, if_pos] at h
      obtain ⟨new, h1, h2, h3⟩ := ih existing rows added rows2 added2 h
      refine ⟨new, h1, h2, fun r hr => ?_⟩
      obtain ⟨m2, hm2, he⟩ := h3 r hr
      exact ⟨m2, List.mem_cons_of_mem _ hm2, he⟩
    · by_cases hf : f added = true
      · simp only [sync_loop, hm, if_false, if_neg, not_false_iff, hf, if_true] at h
        obtain ⟨new, h1, h2, h3⟩ :=
          ih (toString m.id :: existing) (rows ++ [mkRow m now]) (added + 1)
            rows2 added2 h
        refine ⟨mkRow m now :: new, ?_, ?_, ?_⟩
        · rw [h1]; simp
        · rw [h2]; simp; omega
        · intro r hr
          rcases List.mem_cons.mp hr with rfl | hr2
          · exact ⟨m, List.mem_cons_self m rest, rfl⟩
          · obtain ⟨m2, hm2, he⟩ := h3 r hr2
            exact ⟨m2, List.mem_cons_of_mem _ hm2, he⟩
      · simp [sync_loop, hm, hf] at h

lemma sync_loop_error_shape (now : String) (f : Nat → Bool) :
    ∀ (members : List Member) (existing : List String)
      (rows : List (List String)) (added : Nat)
      (rows2 : List (List String)) (added2 : Nat),
      sync_loop now f members existing rows added = .error (rows2, added2) →
      ∃ new, rows2 = rows ++ new ∧ added2 = added + new.length ∧
        (∀ r ∈ new, ∃ m ∈ members, r = mkRow m now) ∧
        new.length < (newRows now members existing).length := by
  intro members
  induction members with
  | nil =>
    intro existing rows added rows2 added2 h
    simp [sync_loop] at h
  | cons m rest ih =>
    intro existing rows added rows2 added2 h
    by_cases hm : toString m.id ∈ existing
    · simp only [sync_loop, hm, if_true, if_pos] at h
      obtain ⟨new, h1, h2, h3, h4⟩ := ih existing rows added rows2 added2 h
      refine ⟨new, h1, h2, fun r hr => ?_, ?_⟩
      · obtain ⟨m2, hm2, he⟩ := h3 r hr
        exact ⟨m2, List.mem_cons_of_mem _ hm2, he⟩
      · simpa only [newRows, hm, if_true, if_pos] using h4
    · by_cases hf : f added = true
      · simp only [sync_loop, hm, if_false, if_neg, not_false_iff, hf, if_true] at h
        obtain ⟨new, h1, h2, h3, h4⟩ :=
          ih (toString m.id :: existing) (rows ++ [mkRow m now]) (added + 1)
            rows2 added2 h
        refine ⟨mkRow m now :: new, ?_, ?_, ?_, ?_⟩
        · rw [h1]; simp
        · rw [h2]; simp; omega
        · intro r hr
          rcases List.mem_cons.mp hr with rfl | hr2
          · exact ⟨m, List.mem_cons_self m rest, rfl⟩
          · obtain ⟨m2, hm2, he⟩ := h3 r hr2
            exact ⟨m2, List.mem_cons_of_mem _ hm2, he⟩
        · simp only [newRows, hm, if_false, if_neg, not_false_iff, List.length_cons]
          omega
      · simp only [sync_loop, hm, hf] at h
        simp only [Bool.false_eq_true, if_false, Except.error.injEq, Prod.mk.injEq] at h
        refine ⟨[], by simp [h.1], by simp [h.2], by simp, ?_⟩
        simp [newRows, hm]

lemma sync_members_true_eq (g : Guild) (now : String) (st : SyncState) :
    sync_members (some g) now (fun _ => true) st =
      ({ sheet := st.sheet ++ newRows now g.members (col_values 3 st.sheet),
         fs := (write_log "sync"
           (newRows now g.members (col_values 3 st.sheet)).length now st.fs).1 },
       .completed (newRows now g.members (col_values 3 st.sheet)).length) := by
  dsimp only [sync_members]
  rw [sync_loop_true_eq]
  simp

lemma take_hundred_append (a l : List LogEntry) :
    (a ++ l.take 100).take 100 = (a ++ l).take 100 := by
  rw [List.take_append_eq_append_take, List.take_append_eq_append_take, List.take_take]
  congr 2
  omega

lemma run_writes_valid (es : List LogEntry) :
    ∀ (init : List LogEntry), es ≠ [] →
      run_writes es ⟨.valid init, false⟩ =
        ⟨.valid ((es.reverse ++ init).take 100), false⟩ := by
  induction es with
  | nil => intro init h; exact absurd rfl h
  | cons e rest ih =>
    intro init _
    have h1 : run_writes (e :: rest) ⟨.valid init, false⟩ =
        run_writes rest ⟨.valid ((e :: init).take 100), false⟩ := rfl
    rw [h1]
    cases rest with
    | nil => simp [run_writes]
    | cons e2 rest2 =>
      rw [ih _ (by simp), take_hundred_append]
      simp [List.append_assoc]

/-- Claim C4: if the configured guild does not resolve, the run returns at
once: the sheet and the log file are unchanged and no log entry is written;
the condition is only reported (the `.guildNotFound` outcome). -/
theorem guild_not_found_aborts (now : String) (appendOk : Nat → Bool)
    (st : SyncState) :
    sync_members none now appendOk st = (st, .guildNotFound) := rfl

/-- Claim C10: when the log file holds bytes that do not parse as JSON,
`write_log` catches the decode error, leaves the file byte-for-byte
unchanged, drops the new entry, and returns normally with a console
message. -/
theorem write_log_corrupt_unchanged (status : String) (count : Nat)
    (time : String) (bytes : String) (wf : Bool) :
    write_log status count time ⟨.corrupt bytes, wf⟩ =
      (⟨.corrupt bytes, wf⟩, ["log failed: invalid json"]) := rfl

/-- Claim C6: after at least 100 log-producing events, the log file holds
exactly the 100 most recent entries, most recent first; each `write_log` call
inserts the new entry at the front and truncates to the first 100 entries
before rewriting the file wholesale. -/
theorem log_bound (es : List LogEntry) (init : List LogEntry) (e : LogEntry)
    (data : List LogEntry) (h : 100 ≤ es.length) :
    run_writes es ⟨.valid init, false⟩ = ⟨.valid (es.reverse.take 100), false⟩ ∧
    (write_log e.status e.member_count e.timestamp ⟨.valid data, false⟩).1.logFile =
      .valid ((e :: data).take 100) := by
  constructor
  · have hne : es ≠ [] := by
      intro he
      rw [he] at h
      simp at h
    rw [run_writes_valid es init hne,
      List.take_append_of_le_length (by simpa using h)]
  · rfl

/-- Concrete instance of `log_bound`, at 100 identical entries over an
initially empty log. -/
theorem log_bound_witness :
    100 ≤ (List.replicate 100 (⟨"t", "s", 0⟩ : LogEntry)).length ∧
    (run_writes (List.replicate 100 ⟨"t", "s", 0⟩) ⟨.valid [], false⟩ =
        ⟨.valid ((List.replicate 100 (⟨"t", "s", 0⟩ : LogEntry)).reverse.take 100),
          false⟩ ∧
      (write_log "s" 0 "t" ⟨.valid [], false⟩).1.logFile =
        .valid (((⟨"t", "s", 0⟩ : LogEntry) :: []).take 100)) :=
  ⟨by simp, log_bound (List.replicate 100 ⟨"t", "s", 0⟩) [] ⟨"t", "s", 0⟩ []
    (by simp)⟩

/-- Claim C7: `write_log` never raises: it always returns a state and a list
of console lines, and whenever its body fails the file state is returned
unchanged with the failure reported only on the console; moreover the log
state has no influence on the sheet the Reconciler produces or on its
outcome, so a log-write failure never changes the Reconciler's result. -/
theorem write_log_never_raises (status : String) (count : Nat) (time : String)
    (fs : FS) (gopt : Option Guild) (now : String) (appendOk : Nat → Bool)
    (sheet : List (List String)) (fs2 : FS) :
    (∃ fs' lines, write_log status count time fs = (fs', lines) ∧
      ∀ e, write_log_body ⟨time, status, count⟩ fs = .error e → fs' = fs) ∧
    (sync_members gopt now appendOk ⟨sheet, fs⟩).1.sheet =
      (sync_members gopt now appendOk ⟨sheet, fs2⟩).1.sheet ∧
    (sync_members gopt now appendOk ⟨sheet, fs⟩).2 =
      (sync_members gopt now appendOk ⟨sheet, fs2⟩).2 := by
  refine ⟨?_, ?_⟩
  · unfold write_log
    cases hb : write_log_body ⟨time, status, count⟩ fs with
    | ok fs' => exact ⟨fs', [], rfl, fun e he => by simp at he⟩
    | error e => exact ⟨fs, ["log failed: " ++ e], rfl, fun _ _ => rfl⟩
  · cases gopt with
    | none => exact ⟨rfl, rfl⟩
    | some g =>
      dsimp only [sync_members]
      cases hr : sync_loop now appendOk g.members (col_values 3 sheet) sheet 0 with
      | ok p => obtain ⟨rows, added⟩ := p; exact ⟨rfl, rfl⟩
      | error p => obtain ⟨rows, added⟩ := p; exact ⟨rfl, rfl⟩

/-- Concrete instance of `write_log_never_raises`: a log file whose write
fails, checked against a one-member roster. -/
theorem write_log_never_raises_witness :
    (∃ fs' lines,
        write_log "sync" 1 "t" ⟨.valid [], true⟩ = (fs', lines) ∧
        ∀ e, write_log_body ⟨"t", "sync", 1⟩ ⟨.valid [], true⟩ = .error e →
          fs' = ⟨.valid [], true⟩) ∧
    (sync_members (some ⟨"g", 5, [⟨"a", "a", 1, "u"⟩]⟩) "t" (fun _ => true)
        ⟨[], ⟨.valid [], true⟩⟩).1.sheet =
      (sync_members (some ⟨"g", 5, [⟨"a", "a", 1, "u"⟩]⟩) "t" (fun _ => true)
        ⟨[], ⟨.valid [], false⟩⟩).1.sheet ∧
    (sync_members (some ⟨"g", 5, [⟨"a", "a", 1, "u"⟩]⟩) "t" (fun _ => true)
        ⟨[], ⟨.valid [], true⟩⟩).2 =
      (sync_members (some ⟨"g", 5, [⟨"a", "a", 1, "u"⟩]⟩) "t" (fun _ => true)
        ⟨[], ⟨.valid [], false⟩⟩).2 :=
  write_log_never_raises "sync" 1 "t" ⟨.valid [], true⟩
    (some ⟨"g", 5, [⟨"a", "a", 1, "u"⟩]⟩) "t" (fun _ => true) [] ⟨.valid [], false⟩

/-- Claim C1: every member whose identity string is not yet in column 3 of
the sheet has exactly one row after a successful run, and the "sync" log
entry carries the count of rows actually appended: the run completes with
some count `a`, the sheet grows by exactly `a` rows, and the log write is
`write_log "sync" a`. -/
theorem completeness_run (g : Guild) (st : SyncState) (now : String)
    (m : Member) (hm : m ∈ g.members)
    (hnew : toString m.id ∉ col_values 3 st.sheet) :
    (col_values 3 ((sync_members (some g) now (fun _ => true) st).1.sheet)).count
        (toString m.id) = 1 ∧
    ∃ a, (sync_members (some g) now (fun _ => true) st).2 = .completed a ∧
      ((sync_members (some g) now (fun _ => true) st).1.sheet).length =
        st.sheet.length + a ∧
      (sync_members (some g) now (fun _ => true) st).1.fs =
        (write_log "sync" a now st.fs).1 := by
  rw [sync_members_true_eq]
  dsimp only
  constructor
  · rw [col_values_append, List.count_append, col_values_newRows,
      List.count_eq_zero.mpr hnew, newIds_count_of_not_mem _ _ _ hnew]
    have hmap : toString m.id ∈ g.members.map (fun m => toString m.id) :=
      List.mem_map.mpr ⟨m, hm, rfl⟩
    simp [hmap]
  · exact ⟨_, rfl, by simp, rfl⟩

/-- Concrete instance of `completeness_run`: scenario B of the spec, sheet
already holding identity "1", roster with ids 1 and 2. -/
theorem completeness_run_witness :
    (⟨"b", "b", 2, "u"⟩ : Member) ∈
      (⟨"g", 5, [⟨"a", "a", 1, "u"⟩, ⟨"b", "b", 2, "u"⟩]⟩ : Guild).members ∧
    toString (2 : Nat) ∉ col_values 3 [["a", "a", "1", "u", "t0"]] ∧
    ((col_values 3 ((sync_members (some ⟨"g", 5, [⟨"a", "a", 1, "u"⟩, ⟨"b", "b", 2, "u"⟩]⟩)
          "t" (fun _ => true)
          ⟨[["a", "a", "1", "u", "t0"]], ⟨.absent, false⟩⟩).1.sheet)).count
        (toString (⟨"b", "b", 2, "u"⟩ : Member).id) = 1 ∧
      ∃ a, (sync_members (some ⟨"g", 5, [⟨"a", "a", 1, "u"⟩, ⟨"b", "b", 2, "u"⟩]⟩)
          "t" (fun _ => true)
          ⟨[["a", "a", "1", "u", "t0"]], ⟨.absent, false⟩⟩).2 = .completed a ∧
        ((sync_members (some ⟨"g", 5, [⟨"a", "a", 1, "u"⟩, ⟨"b", "b", 2, "u"⟩]⟩)
          "t" (fun _ => true)
          ⟨[["a", "a", "1", "u", "t0"]], ⟨.absent, false⟩⟩).1.sheet).length =
          [["a", "a", "1", "u", "t0"]].length + a ∧
        (sync_members (some ⟨"g", 5, [⟨"a", "a", 1, "u"⟩, ⟨"b", "b", 2, "u"⟩]⟩)
          "t" (fun _ => true)
          ⟨[["a", "a", "1", "u", "t0"]], ⟨.absent, false⟩⟩).1.fs =
          (write_log "sync" a "t" ⟨.absent, false⟩).1) :=
  ⟨by decide, by decide,
    completeness_run ⟨"g", 5, [⟨"a", "a", 1, "u"⟩, ⟨"b", "b", 2, "u"⟩]⟩
      ⟨[["a", "a", "1", "u", "t0"]], ⟨.absent, false⟩⟩ "t" ⟨"b", "b", 2, "u"⟩
      (by decide) (by decide)⟩

/-- Claim C2: a member already represented by identity in the sheet gets no
new row (the count of its identity in column 3 is unchanged by a run), and
no member ever gains more than one row in a run, even if its identity occurs
twice in the roster. -/
theorem no_duplication (g : Guild) (st : SyncState) (now : String)
    (m : Member) (_hm : m ∈ g.members) :
    (toString m.id ∈ col_values 3 st.sheet →
      (col_values 3 ((sync_members (some g) now (fun _ => true) st).1.sheet)).count
          (toString m.id) =
        (col_values 3 st.sheet).count (toString m.id)) ∧
    (col_values 3 ((sync_members (some g) now (fun _ => true) st).1.sheet)).count
        (toString m.id) ≤
      (col_values 3 st.sheet).count (toString m.id) + 1 := by
  rw [sync_members_true_eq]
  dsimp only
  rw [col_values_append, List.count_append, col_values_newRows]
  constructor
  · intro hmem
    rw [newIds_count_of_mem _ _ _ hmem]
    omega
  · by_cases hmem : toString m.id ∈ col_values 3 st.sheet
    · rw [newIds_count_of_mem _ _ _ hmem]
      omega
    · rw [newIds_count_of_not_mem _ _ _ hmem]
      split <;> omega

/-- Concrete instance of `no_duplication`: identity "1" already stored and
listed twice in the roster; its count in column 3 stays 1. -/
theorem no_duplication_witness :
    (⟨"a", "a", 1, "u"⟩ : Member) ∈
      (⟨"g", 5, [⟨"a", "a", 1, "u"⟩, ⟨"a2", "a2", 1, "u2"⟩]⟩ : Guild).members ∧
    ((toString (⟨"a", "a", 1, "u"⟩ : Member).id ∈
        col_values 3 [["a", "a", "1", "u", "t0"]] →
      (col_values 3 ((sync_members
          (some ⟨"g", 5, [⟨"a", "a", 1, "u"⟩, ⟨"a2", "a2", 1, "u2"⟩]⟩)
          "t" (fun _ => true)
          ⟨[["a", "a", "1", "u", "t0"]], ⟨.absent, false⟩⟩).1.sheet)).count
          (toString (⟨"a", "a", 1, "u"⟩ : Member).id) =
        (col_values 3 [["a", "a", "1", "u", "t0"]]).count
          (toString (⟨"a", "a", 1, "u"⟩ : Member).id)) ∧
    (col_values 3 ((sync_members
          (some ⟨"g", 5, [⟨"a", "a", 1, "u"⟩, ⟨"a2", "a2", 1, "u2"⟩]⟩)
          "t" (fun _ => true)
          ⟨[["a", "a", "1", "u", "t0"]], ⟨.absent, false⟩⟩).1.sheet)).count
          (toString (⟨"a", "a", 1, "u"⟩ : Member).id) ≤
        (col_values 3 [["a", "a", "1", "u", "t0"]]).count
          (toString (⟨"a", "a", 1, "u"⟩ : Member).id) + 1) :=
  ⟨by decide,
    no_duplication ⟨"g", 5, [⟨"a", "a", 1, "u"⟩, ⟨"a2", "a2", 1, "u2"⟩]⟩
      ⟨[["a", "a", "1", "u", "t0"]], ⟨.absent, false⟩⟩ "t" ⟨"a", "a", 1, "u"⟩
      (by decide)⟩

/-- Claim C3: running the Reconciler twice in a row, with no roster change
and no external sheet change in between, appends zero rows on the second
run: the sheet is unchanged and the second outcome is `completed 0`. The
existing-identity set of the second run is rebuilt from column 3 of the
sheet the first run left behind. -/
theorem idempotent_second_run (g : Guild) (st : SyncState) (now now2 : String) :
    ((sync_members (some g) now2 (fun _ => true)
        ((sync_members (some g) now (fun _ => true) st).1)).1).sheet =
      ((sync_members (some g) now (fun _ => true) st).1).sheet ∧
    (sync_members (some g) now2 (fun _ => true)
        ((sync_members (some g) now (fun _ => true) st).1)).2 = .completed 0 := by
  have hall : ∀ m ∈ g.members, toString m.id ∈
      col_values 3 st.sheet ++ newIds g.members (col_values 3 st.sheet) := by
    intro m hm
    by_cases hmem : toString m.id ∈ col_values 3 st.sheet
    · exact List.mem_append_left _ hmem
    · refine List.mem_append_right _ ?_
      have hc : (newIds g.members (col_values 3 st.sheet)).count (toString m.id)
          = 1 := by
        rw [newIds_count_of_not_mem _ _ _ hmem]
        simp [List.mem_map.mpr ⟨m, hm, rfl⟩]
      exact List.count_pos_iff.mp (by omega)
  have hnil : newRows now2 g.members
      (col_values 3 (st.sheet ++ newRows now g.members (col_values 3 st.sheet)))
      = [] := by
    rw [col_values_append, col_values_newRows]
    exact newRows_nil_of_all_mem now2 g.members _ hall
  rw [sync_members_true_eq g now st]
  dsimp only
  rw [sync_members_true_eq]
  dsimp only
  rw [hnil]
  simp

/-- Claim C5: when an append raises mid-batch, the exception propagates out
of the run: the log-file state is untouched (no "sync" entry), the rows
appended before the failure stay in the sheet (the old sheet is a prefix of
the new one, each added row belonging to a roster member), and the rest of
the batch is not processed (strictly fewer rows were added than a complete
run would have added). -/
theorem append_failure_aborts (g : Guild) (st : SyncState) (now : String)
    (appendOk : Nat → Bool) (st2 : SyncState) (k : Nat)
    (h : sync_members (some g) now appendOk st = (st2, .appendFailed k)) :
    st2.fs = st.fs ∧
    ∃ new, st2.sheet = st.sheet ++ new ∧ new.length = k ∧
      (∀ r ∈ new, ∃ m ∈ g.members, r = mkRow m now) ∧
      k < (newRows now g.members (col_values 3 st.sheet)).length := by
  dsimp only [sync_members] at h
  cases hr : sync_loop now appendOk g.members (col_values 3 st.sheet) st.sheet 0 with
  | ok p =>
    obtain ⟨rows, added⟩ := p
    rw [hr] at h
    simp at h
  | error p =>
    obtain ⟨rows, added⟩ := p
    rw [hr] at h
    simp only [Prod.mk.injEq, SyncResult.appendFailed.injEq] at h
    obtain ⟨h1, h2⟩ := h
    subst h1
    subst h2
    obtain ⟨new, e1, e2, e3, e4⟩ :=
      sync_loop_error_shape now appendOk g.members (col_values 3 st.sheet)
        st.sheet 0 rows added hr
    exact ⟨rfl, new, e1, by omega, e3, by omega⟩

/-- Concrete instance of `append_failure_aborts`: the second of two appends
raises; the first row stays, no log entry is written. -/
theorem append_failure_aborts_witness :
    sync_members (some ⟨"g", 5, [⟨"a", "a", 1, "u"⟩, ⟨"b", "b", 2, "u"⟩]⟩) "t"
        (fun k => k == 0) ⟨[], ⟨.absent, false⟩⟩ =
      (⟨[["a", "a", "1", "u", "t"]], ⟨.absent, false⟩⟩, .appendFailed 1) ∧
    ((⟨[["a", "a", "1", "u", "t"]], ⟨.absent, false⟩⟩ : SyncState).fs =
        (⟨[], ⟨.absent, false⟩⟩ : SyncState).fs ∧
      ∃ new, (⟨[["a", "a", "1", "u", "t"]], ⟨.absent, false⟩⟩ : SyncState).sheet =
          (⟨[], ⟨.absent, false⟩⟩ : SyncState).sheet ++ new ∧ new.length = 1 ∧
        (∀ r ∈ new, ∃ m ∈ (⟨"g", 5, [⟨"a", "a", 1, "u"⟩, ⟨"b", "b", 2, "u"⟩]⟩ :
            Guild).members, r = mkRow m "t") ∧
        1 < (newRows "t" (⟨"g", 5, [⟨"a", "a", 1, "u"⟩, ⟨"b", "b", 2, "u"⟩]⟩ :
            Guild).members (col_values 3 (⟨[], ⟨.absent, false⟩⟩ :
            SyncState).sheet)).length) :=
  ⟨rfl, append_failure_aborts ⟨"g", 5, [⟨"a", "a", 1, "u"⟩, ⟨"b", "b", 2, "u"⟩]⟩
    ⟨[], ⟨.absent, false⟩⟩ "t" (fun k => k == 0)
    ⟨[["a", "a", "1", "u", "t"]], ⟨.absent, false⟩⟩ 1 rfl⟩

/-- Claim C8: every row a run appends is the 5-tuple display name, handle,
identity string, avatar URL, timestamp — the identity sitting at index 2,
which is exactly the cell `col_values 3` reads when the run builds the
existing-identity set. -/
theorem appended_row_layout (g : Guild) (st : SyncState) (now : String)
    (appendOk : Nat → Bool) (rows : List (List String)) :
    (∃ new, (sync_members (some g) now appendOk st).1.sheet = st.sheet ++ new ∧
      ∀ r ∈ new, ∃ m ∈ g.members,
        r = [m.display_name, m.name, toString m.id, m.avatar_url, now] ∧
        r.getD 2 "" = toString m.id) ∧
    col_values 3 rows = rows.map (fun r => r.getD 2 "") := by
  constructor
  · dsimp only [sync_members]
    cases hr : sync_loop now appendOk g.members (col_values 3 st.sheet)
        st.sheet 0 with
    | ok p =>
      obtain ⟨rows2, added⟩ := p
      obtain ⟨new, h1, _, h3⟩ :=
        sync_loop_ok_shape now appendOk g.members (col_values 3 st.sheet)
          st.sheet 0 rows2 added hr
      refine ⟨new, h1, fun r hrr => ?_⟩
      obtain ⟨m, hm2, he⟩ := h3 r hrr
      exact ⟨m, hm2, he, by rw [he]; rfl⟩
    | error p =>
      obtain ⟨rows2, added⟩ := p
      obtain ⟨new, h1, _, h3, _⟩ :=
        sync_loop_error_shape now appendOk g.members (col_values 3 st.sheet)
          st.sheet 0 rows2 added hr
      refine ⟨new, h1, fun r hrr => ?_⟩
      obtain ⟨m, hm2, he⟩ := h3 r hrr
      exact ⟨m, hm2, he, by rw [he]; rfl⟩
  · rfl

/-- Claim C9: deduplication is decided by exact string equality between
`str(member.id)` and the raw cell strings of column 3: a run changes the
count of a member's identity string in column 3 by exactly one when that
precise string is absent — whatever textual variants of the number the
column may hold — and by zero when it is present. -/
theorem dedup_exact_string (g : Guild) (st : SyncState) (now : String)
    (m : Member) (hm : m ∈ g.members) :
    (col_values 3 ((sync_members (some g) now (fun _ => true) st).1.sheet)).count
        (toString m.id) =
      (col_values 3 st.sheet).count (toString m.id) +
        (if toString m.id ∈ col_values 3 st.sheet then 0 else 1) := by
  rw [sync_members_true_eq]
  dsimp only
  rw [col_values_append, List.count_append, col_values_newRows]
  by_cases hmem : toString m.id ∈ col_values 3 st.sheet
  · rw [newIds_count_of_mem _ _ _ hmem]
    simp [hmem]
  · rw [newIds_count_of_not_mem _ _ _ hmem]
    have hmap : toString m.id ∈ g.members.map (fun m => toString m.id) :=
      List.mem_map.mpr ⟨m, hm, rfl⟩
    simp [hmem, hmap]

/-- Concrete instance of `dedup_exact_string`: the stored cell " 1" (with a
leading space) does not match `toString 1 = "1"`, so the member with id 1
still gets a row appended. -/
theorem dedup_exact_string_witness :
    (⟨"a", "a", 1, "u"⟩ : Member) ∈
      (⟨"g", 5, [⟨"a", "a", 1, "u"⟩]⟩ : Guild).members ∧
    (col_values 3 ((sync_members (some ⟨"g", 5, [⟨"a", "a", 1, "u"⟩]⟩) "t"
        (fun _ => true) ⟨[["a", "a", " 1", "u", "t0"]], ⟨.absent, false⟩⟩).1.sheet)).count
        (toString (⟨"a", "a", 1, "u"⟩ : Member).id) =
      (col_values 3 [["a", "a", " 1", "u", "t0"]]).count
          (toString (⟨"a", "a", 1, "u"⟩ : Member).id) +
        (if toString (⟨"a", "a", 1, "u"⟩ : Member).id ∈
            col_values 3 [["a", "a", " 1", "u", "t0"]] then 0 else 1) :=
  ⟨by decide, dedup_exact_string ⟨"g", 5, [⟨"a", "a", 1, "u"⟩]⟩
    ⟨[["a", "a", " 1", "u", "t0"]], ⟨.absent, false⟩⟩ "t" ⟨"a", "a", 1, "u"⟩
    (by decide)⟩

end GetNameId
